import Mathlib

/-!
Verification development for a minimal offline ray tracer
(`src/beamburst2.cpp`).

Shallow embedding conventions:
* C++ `float` values are modelled as exact rationals (`ℚ`): the claims under
  study are control-flow and algebraic properties of the intersection and
  shading algorithms, which the ideal-arithmetic model captures; floating-point
  rounding itself is not modelled.
* `std::sqrt` is irrational-valued in general, so every function that calls it
  takes an explicit parameter `sqrtf : ℚ → ℚ` standing for the square-root
  routine; theorems quantify over `sqrtf` and hypothesise its defining
  properties only where a claim needs them.
* `std::isnormal x` is modelled as `minNormal ≤ |x| ∧ |x| ≤ floatMax`
  (a normal float is neither zero, subnormal, infinite nor NaN; in the exact
  model the magnitude range is what remains).
* `std::signbit time` is modelled as `time < 0`.  The one divergence, an exact
  `-0.0` numerator over a positive denominator, makes the C++ code return
  `false` via the signbit branch while the model returns `false` via the
  subsequent `time > eps` window test; the observable result (return value and
  final ray) is identical.
* The float literal `0.01` of the intensity cutoff is modelled as `1/100`.
-/

/-- The self-intersection guard: `std::numeric_limits<float>::epsilon() * 250.0`,
i.e. `2^(-23) * 250` exactly. -/
def eps : ℚ := 250 / 2 ^ 23

/-- The value `std::numeric_limits<float>::max()`, the largest finite `float`:
`(2 - 2^(-23)) * 2^127 = (2^24 - 1) * 2^104` exactly. -/
def floatMax : ℚ := (2 ^ 24 - 1) * 2 ^ 104

/-- The smallest positive normal `float`, `2^(-126)`; lower magnitude bound of
`std::isnormal`. -/
def minNormal : ℚ := 1 / 2 ^ 126

/-- Model of `std::isnormal` on an exactly-represented value: nonzero with
magnitude in the normal range (not zero, not subnormal, not infinite, not NaN). -/
def isNormalF (x : ℚ) : Prop := minNormal ≤ |x| ∧ |x| ≤ floatMax

instance (x : ℚ) : Decidable (isNormalF x) := by
  unfold isNormalF
  infer_instance

/-- The `vec3` type: `std::array<float, 3>`, components modelled as rationals. -/
structure vec3 where
  x : ℚ
  y : ℚ
  z : ℚ
deriving DecidableEq

/-- The zero vector, `std::array<float, 3>{}` (value initialization). -/
def vzero : vec3 := ⟨0, 0, 0⟩

/-- Embedding of `dot` (the `N = 3` instance, loop unrolled). -/
def dot (lhs rhs : vec3) : ℚ := lhs.x * rhs.x + lhs.y * rhs.y + lhs.z * rhs.z

/-- Embedding of `cross`. -/
def cross (lhs rhs : vec3) : vec3 :=
  ⟨lhs.y * rhs.z - lhs.z * rhs.y,
   lhs.z * rhs.x - lhs.x * rhs.z,
   lhs.x * rhs.y - lhs.y * rhs.x⟩

/-- Embedding of componentwise `operator+`. -/
def vadd (lhs rhs : vec3) : vec3 := ⟨lhs.x + rhs.x, lhs.y + rhs.y, lhs.z + rhs.z⟩

/-- Embedding of componentwise `operator-`. -/
def vsub (lhs rhs : vec3) : vec3 := ⟨lhs.x - rhs.x, lhs.y - rhs.y, lhs.z - rhs.z⟩

/-- Embedding of scalar `operator*` (both the `float * vec` and `vec * float`
overloads: multiplication of rationals is commutative, so one model serves). -/
def smul (c : ℚ) (v : vec3) : vec3 := ⟨c * v.x, c * v.y, c * v.z⟩

/-- Embedding of elementwise `operator*` on vectors. -/
def vmul (lhs rhs : vec3) : vec3 := ⟨lhs.x * rhs.x, lhs.y * rhs.y, lhs.z * rhs.z⟩

/-- Embedding of `normalize` (the `N = 3` instance): `length = sqrt(dot(v, v))`;
if the computed length is zero the zero vector is returned with no division. -/
def vnormalize (sqrtf : ℚ → ℚ) (v : vec3) : vec3 :=
  let length := sqrtf (dot v v)
  if length = 0 then vzero
  else ⟨v.x / length, v.y / length, v.z / length⟩

/-- Embedding of `struct Ray`: origin, direction, and the mutable
closest-hit-so-far distance `t`. -/
structure Ray where
  origin : vec3
  direction : vec3
  t : ℚ
deriving DecidableEq

/-- The two-argument `Ray` constructor: `t` starts at
`std::numeric_limits<float>::max()`. -/
def Ray.make (origin direction : vec3) : Ray := ⟨origin, direction, floatMax⟩

/-- The default `Ray` constructor: zero origin and direction, `t` likewise
starts at `std::numeric_limits<float>::max()`. -/
def rayDefault : Ray := ⟨vzero, vzero, floatMax⟩

/-- Embedding of `Ray::hit_position`: `origin + t * direction`. -/
def Ray.hit_position (r : Ray) : vec3 := vadd r.origin (smul r.t r.direction)

/-- Embedding of `struct Material`. -/
structure Material where
  color : vec3
  ambient : ℚ
  diffuse : ℚ
  reflect : ℚ
deriving DecidableEq

/-- Embedding of `class Sphere` (geometry and material data). -/
structure Sphere where
  position : vec3
  radius : ℚ
  mat : Material
deriving DecidableEq

/-- The vector `h = position - ray.origin` of `Sphere::hit`. -/
def sphH (s : Sphere) (r : Ray) : vec3 := vsub s.position r.origin

/-- The scalar `m = dot(h, ray.direction)` of `Sphere::hit`. -/
def sphM (s : Sphere) (r : Ray) : ℚ := dot (sphH s r) r.direction

/-- The discriminant `g = m*m - dot(h, h) + radius*radius` of `Sphere::hit`. -/
def sphG (s : Sphere) (r : Ray) : ℚ :=
  sphM s r * sphM s r - dot (sphH s r) (sphH s r) + s.radius * s.radius

/-- The near root `t0 = m - sqrt(g)` of `Sphere::hit`. -/
def sphT0 (sqrtf : ℚ → ℚ) (s : Sphere) (r : Ray) : ℚ := sphM s r - sqrtf (sphG s r)

/-- The far root `t1 = m + sqrt(g)` of `Sphere::hit`. -/
def sphT1 (sqrtf : ℚ → ℚ) (s : Sphere) (r : Ray) : ℚ := sphM s r + sqrtf (sphG s r)

/-- Embedding of `Sphere::hit`.  The C++ method mutates `ray` in place and
returns `bool`; the model returns the post-call ray paired with the return
value. -/
def Sphere.hit (sqrtf : ℚ → ℚ) (s : Sphere) (r : Ray) : Ray × Bool :=
  if sphG s r < 0 then (r, false)
  else if eps < sphT0 sqrtf s r ∧ sphT0 sqrtf s r < r.t then
    ({ r with t := sphT0 sqrtf s r }, true)
  else if eps < sphT1 sqrtf s r ∧ sphT1 sqrtf s r < r.t then
    ({ r with t := sphT1 sqrtf s r }, true)
  else (r, false)

/-- Embedding of `Sphere::normal`. -/
def Sphere.normal (sqrtf : ℚ → ℚ) (s : Sphere) (hp : vec3) : vec3 :=
  vnormalize sqrtf (vsub hp s.position)

/-- Embedding of `class Triangle` (the three vertices `positions[0..2]` and the
material). -/
structure Triangle where
  p0 : vec3
  p1 : vec3
  p2 : vec3
  mat : Material
deriving DecidableEq

/-- Edge `e1 = positions[1] - positions[0]` of `Triangle::hit`. -/
def triE1 (tr : Triangle) : vec3 := vsub tr.p1 tr.p0

/-- Edge `e2 = positions[2] - positions[0]` of `Triangle::hit`. -/
def triE2 (tr : Triangle) : vec3 := vsub tr.p2 tr.p0

/-- Plane normal `n = cross(e1, e2)` of `Triangle::hit`. -/
def triN (tr : Triangle) : vec3 := cross (triE1 tr) (triE2 tr)

/-- Plane constant `D = -dot(positions[0], n)` of `Triangle::hit`. -/
def triD (tr : Triangle) : ℚ := -(dot tr.p0 (triN tr))

/-- The `denominator = dot(n, ray.direction)` of `Triangle::hit`. -/
def triDenom (tr : Triangle) (r : Ray) : ℚ := dot (triN tr) r.direction

/-- The plane-intersection `time = -(D + dot(n, ray.origin)) / denominator` of
`Triangle::hit`. -/
def triTime (tr : Triangle) (r : Ray) : ℚ :=
  -(triD tr + dot (triN tr) r.origin) / triDenom tr r

/-- The `solution_position = ray.origin + time * ray.direction` of
`Triangle::hit`. -/
def triSol (tr : Triangle) (r : Ray) : vec3 :=
  vadd r.origin (smul (triTime tr r) r.direction)

/-- The vector `ep = solution_position - positions[0]` of `Triangle::hit`. -/
def triEp (tr : Triangle) (r : Ray) : vec3 := vsub (triSol tr r) tr.p0

/-- The Gram determinant `det = d11*d22 - d12*d12` of `Triangle::hit` (depends
only on the triangle's edges). -/
def triDet (tr : Triangle) : ℚ :=
  dot (triE1 tr) (triE1 tr) * dot (triE2 tr) (triE2 tr) -
    dot (triE1 tr) (triE2 tr) * dot (triE1 tr) (triE2 tr)

/-- The barycentric coordinate `beta = (d22*d1p - d12*d2p) / det` of
`Triangle::hit`. -/
def triBeta (tr : Triangle) (r : Ray) : ℚ :=
  (dot (triE2 tr) (triE2 tr) * dot (triE1 tr) (triEp tr r) -
    dot (triE1 tr) (triE2 tr) * dot (triE2 tr) (triEp tr r)) / triDet tr

/-- The barycentric coordinate `gamma = (d11*d2p - d12*d1p) / det` of
`Triangle::hit`. -/
def triGamma (tr : Triangle) (r : Ray) : ℚ :=
  (dot (triE1 tr) (triE1 tr) * dot (triE2 tr) (triEp tr r) -
    dot (triE1 tr) (triE2 tr) * dot (triE1 tr) (triEp tr r)) / triDet tr

/-- Embedding of `Triangle::hit`: plane intersection, `ray.t` window test with
the in-place `ray.t = time` assignment, then the barycentric containment test.
Containment failure (or an abnormal determinant) returns `false` WITHOUT
restoring the already-mutated `ray.t`, exactly as the C++ does. -/
def Triangle.hit (tr : Triangle) (r : Ray) : Ray × Bool :=
  if ¬ isNormalF (triDenom tr r) then (r, false)
  else if triTime tr r < 0 then (r, false)
  else if eps < triTime tr r ∧ triTime tr r < r.t then
    if ¬ isNormalF (triDet tr) then ({ r with t := triTime tr r }, false)
    else if triBeta tr r < 0 ∨ 1 < triBeta tr r ∨ triGamma tr r < 0 ∨
        1 < triGamma tr r ∨ 1 < triBeta tr r + triGamma tr r ∨
        triBeta tr r + triGamma tr r < 0 then ({ r with t := triTime tr r }, false)
    else ({ r with t := triTime tr r }, true)
  else (r, false)

/-- Embedding of `Triangle::normal`. -/
def Triangle.normal (sqrtf : ℚ → ℚ) (tr : Triangle) (hp : vec3) : vec3 :=
  vnormalize sqrtf (cross (vsub hp tr.p0) (vsub tr.p2 tr.p0))

/-- A scene primitive behind the `Object` interface: either a `Sphere` or a
`Triangle` (the C++ dispatches virtually through `Object*`). -/
inductive Prim where
  | sph (s : Sphere)
  | tri (t : Triangle)
deriving DecidableEq

/-- Virtual dispatch of `Object::hit`. -/
def Prim.hit (sqrtf : ℚ → ℚ) : Prim → Ray → Ray × Bool
  | Prim.sph s, r => Sphere.hit sqrtf s r
  | Prim.tri t, r => Triangle.hit t r

/-- Virtual dispatch of `Object::normal`. -/
def Prim.normal (sqrtf : ℚ → ℚ) : Prim → vec3 → vec3
  | Prim.sph s, hp => Sphere.normal sqrtf s hp
  | Prim.tri t, hp => Triangle.normal sqrtf t hp

/-- Virtual dispatch of `Object::material`. -/
def Prim.material : Prim → Material
  | Prim.sph s => s.mat
  | Prim.tri t => t.mat

/-- Embedding of `struct Light`. -/
structure Light where
  position : vec3
  color : vec3
deriving DecidableEq

/-- The nearest-hit pass of the trace loop: iterate the scene's objects in
order, calling `hit` on the shared ray; `hit_object` is set to the last object
whose `hit` returned true (`if (object->hit(ray)) hit_object = object;`). -/
def scenePass (sqrtf : ℚ → ℚ) (objs : List Prim) (r : Ray) : Ray × Option Prim :=
  objs.foldl
    (fun acc o =>
      let hb := Prim.hit sqrtf o acc.1
      (hb.1, if hb.2 then some o else acc.2))
    (r, none)

/-- The `t` values recorded at each successful `hit` of a pass over the
primitive list, in call order (the value `ray.t` holds right after each call
that returned true). -/
def passTs (sqrtf : ℚ → ℚ) : List Prim → Ray → List ℚ
  | [], _ => []
  | o :: os, r =>
    let hb := Prim.hit sqrtf o r
    if hb.2 then hb.1.t :: passTs sqrtf os hb.1 else passTs sqrtf os hb.1

/-- The shadow-ray occlusion test of the diffuse step: iterate the objects,
stopping at the first `hit` that returns true (`in_shadow = true; break;`). -/
def shadowPass (sqrtf : ℚ → ℚ) : List Prim → Ray → Bool
  | [], _ => false
  | o :: os, r =>
    let hb := Prim.hit sqrtf o r
    if hb.2 then true else shadowPass sqrtf os hb.1

/-- One light's step of the diffuse loop, acting on the color accumulator `c`:
skip the light if `dot(hit_normal, light_direction) <= 0` or if the shadow ray
(a fresh `Ray` from the nudged hit position toward the light) hits anything;
otherwise add `intensity * mat.diffuse * diffuse * light.color * mat.color`. -/
def diffuseStep (sqrtf : ℚ → ℚ) (objs : List Prim) (hitPosition hitNormal : vec3)
    (intensity : ℚ) (mat : Material) (c : vec3) (light : Light) : vec3 :=
  let lightDirection := vnormalize sqrtf (vsub light.position hitPosition)
  let diffuse := dot hitNormal lightDirection
  if diffuse ≤ 0 then c
  else if shadowPass sqrtf objs (Ray.make hitPosition lightDirection) = true then c
  else vadd c (vmul (smul (intensity * mat.diffuse * diffuse) light.color) mat.color)

/-- The nudged hit position of a trace-loop iteration:
`hit_position = ray.hit_position(); hit_position += hit_normal * eps;`. -/
def nudgedPos (sqrtf : ℚ → ℚ) (r : Ray) (obj : Prim) : vec3 :=
  vadd r.hit_position (smul eps (Prim.normal sqrtf obj r.hit_position))

/-- The ambient term plus the per-light diffuse loop of one trace-loop
iteration, applied to the incoming color accumulator. -/
def shadeAmbientDiffuse (sqrtf : ℚ → ℚ) (objs : List Prim) (lights : List Light)
    (r : Ray) (obj : Prim) (color : vec3) (intensity : ℚ) : vec3 :=
  let hitNormal := Prim.normal sqrtf obj r.hit_position
  let mat := Prim.material obj
  let c1 := vadd color (smul (intensity * mat.ambient) mat.color)
  lights.foldl (diffuseStep sqrtf objs (nudgedPos sqrtf r obj) hitNormal intensity mat) c1

/-- The reflected ray spawned at the end of a trace-loop iteration: origin at
the nudged hit position, direction
`normalize(direction - 2 * dot(direction, hit_normal) * hit_normal)`, fresh
`t`. -/
def reflectedRay (sqrtf : ℚ → ℚ) (r : Ray) (obj : Prim) : Ray :=
  let hitNormal := Prim.normal sqrtf obj r.hit_position
  Ray.make (nudgedPos sqrtf r obj)
    (vnormalize sqrtf (vsub r.direction (smul (2 * dot r.direction hitNormal) hitNormal)))

/-- The trace loop of `ray_trace`, with fuel `depth` standing for the remaining
loop iterations (`MaxDepth - depth` executed so far).  Returns the accumulated
color paired with the number of loop iterations actually executed. -/
def traceRun (sqrtf : ℚ → ℚ) (objs : List Prim) (lights : List Light) :
    ℕ → Ray → vec3 → ℚ → vec3 × ℕ
  | 0, _, color, _ => (color, 0)
  | depth + 1, ray, color, intensity =>
    let pr := scenePass sqrtf objs ray
    match pr.2 with
    | none => (color, 1)
    | some obj =>
      let color2 := shadeAmbientDiffuse sqrtf objs lights pr.1 obj color intensity
      let intensity2 := intensity * (Prim.material obj).reflect
      if intensity2 < 1 / 100 then (color2, 1)
      else
        let rest := traceRun sqrtf objs lights depth (reflectedRay sqrtf pr.1 obj) color2 intensity2
        (rest.1, rest.2 + 1)

/-- Embedding of `ray_trace<Width, Height, MaxDepth>(scene, i, j)`: build the
primary ray (origin `(i - Width/2, j - Height/2, -1000)` with the C++ integer
division and casts, direction `(0, 0, 1)`), then run the trace loop starting
from zero color and intensity one. -/
def ray_trace (sqrtf : ℚ → ℚ) (objs : List Prim) (lights : List Light)
    (Width Height MaxDepth : ℕ) (i j : ℤ) : vec3 :=
  (traceRun sqrtf objs lights MaxDepth
    (Ray.make
      ⟨((i - ((Width / 2 : ℕ) : ℤ) : ℤ) : ℚ), ((j - ((Height / 2 : ℕ) : ℤ) : ℤ) : ℚ), -1000⟩
      ⟨0, 0, 1⟩)
    vzero 1).1

/-- A material with all coefficients zero (test fixture for intersection
claims, whose results do not depend on the material). -/
def matZero : Material := ⟨vzero, 0, 0, 0⟩

/-- Test fixture: unit sphere centered at `(0, 0, 10)`. -/
def s0 : Sphere := ⟨⟨0, 0, 10⟩, 1, matZero⟩

/-- Test fixture: ray from the origin along `+z`. -/
def r0 : Ray := Ray.make vzero ⟨0, 0, 1⟩

/-- Test fixture: the triangle with vertices `(0,0,0)`, `(1,0,0)`, `(0,1,0)`. -/
def tri0 : Triangle := ⟨vzero, ⟨1, 0, 0⟩, ⟨0, 1, 0⟩, matZero⟩

/-- Test fixture: a ray that meets `tri0`'s plane at `(5, 5, 0)`, outside the
triangle. -/
def ray0 : Ray := Ray.make ⟨5, 5, -1⟩ ⟨0, 0, 1⟩

/-- Test fixture: a ray that meets `tri0`'s plane at `(1/4, 1/4, 0)`, inside
the triangle. -/
def rayC4 : Ray := Ray.make ⟨1/4, 1/4, -1⟩ ⟨0, 0, 1⟩

/-- Test fixture: a point light at `(0, 0, 10)`. -/
def light0 : Light := ⟨⟨0, 0, 10⟩, ⟨1, 1, 1⟩⟩

/-- Test fixture: a unit sphere at `(0, 0, 20)`, farther from the origin than
`light0`. -/
def occSphere : Sphere := ⟨⟨0, 0, 20⟩, 1, matZero⟩

/-- Test fixture: a square-root function correct at the two arguments the
`light0`/`occSphere` configuration evaluates it on. -/
def sqrtC5 : ℚ → ℚ := fun q => if q = 100 then 10 else 1

/-- Spec-side reading of the phrase "initialized to +infinity": in float
semantics, `+inf` is the unique value strictly above every finite float, and
every finite float has magnitude at most `floatMax`. -/
def IsFloatInfinity (q : ℚ) : Prop := ∀ x : ℚ, |x| ≤ floatMax → x < q

theorem eps_pos : 0 < eps := by norm_num [eps]

theorem sphere_hit_t_le (sqrtf : ℚ → ℚ) (s : Sphere) (r : Ray) :
    (Sphere.hit sqrtf s r).1.t ≤ r.t := by
  unfold Sphere.hit
  split_ifs <;> simp_all <;> linarith

theorem triangle_hit_t_le (tr : Triangle) (r : Ray) :
    (Triangle.hit tr r).1.t ≤ r.t := by
  unfold Triangle.hit
  split_ifs <;> simp_all <;> linarith

theorem prim_hit_t_le (sqrtf : ℚ → ℚ) (p : Prim) (r : Ray) :
    (Prim.hit sqrtf p r).1.t ≤ r.t := by
  cases p with
  | sph s => exact sphere_hit_t_le sqrtf s r
  | tri t => exact triangle_hit_t_le t r

theorem sphere_hit_true_t_lt (sqrtf : ℚ → ℚ) (s : Sphere) (r : Ray)
    (h : (Sphere.hit sqrtf s r).2 = true) : (Sphere.hit sqrtf s r).1.t < r.t := by
  unfold Sphere.hit at h ⊢
  split_ifs at h ⊢ <;> simp_all <;> linarith

theorem triangle_hit_true_t_lt (tr : Triangle) (r : Ray)
    (h : (Triangle.hit tr r).2 = true) : (Triangle.hit tr r).1.t < r.t := by
  unfold Triangle.hit at h ⊢
  split_ifs at h ⊢ <;> simp_all <;> linarith

theorem prim_hit_true_t_lt (sqrtf : ℚ → ℚ) (p : Prim) (r : Ray)
    (h : (Prim.hit sqrtf p r).2 = true) : (Prim.hit sqrtf p r).1.t < r.t := by
  cases p with
  | sph s => exact sphere_hit_true_t_lt sqrtf s r h
  | tri t => exact triangle_hit_true_t_lt t r h

theorem passTs_lt (sqrtf : ℚ → ℚ) :
    ∀ (os : List Prim) (r : Ray), ∀ q ∈ passTs sqrtf os r, q < r.t := by
  intro os
  induction os with
  | nil => intro r q hq; simp [passTs] at hq
  | cons o os ih =>
    intro r q hq
    simp only [passTs] at hq
    split_ifs at hq with hb
    · rcases List.mem_cons.mp hq with hq | hq
      · rw [hq]; exact prim_hit_true_t_lt sqrtf o r hb
      · exact lt_of_lt_of_le (ih _ q hq)
          (le_of_lt (prim_hit_true_t_lt sqrtf o r hb))
    · exact lt_of_lt_of_le (ih _ q hq) (prim_hit_t_le sqrtf o r)

theorem passTs_pairwise (sqrtf : ℚ → ℚ) :
    ∀ (os : List Prim) (r : Ray),
      List.Pairwise (fun a b => b < a) (passTs sqrtf os r) := by
  intro os
  induction os with
  | nil => intro r; simp [passTs]
  | cons o os ih =>
    intro r
    simp only [passTs]
    split_ifs with hb
    · exact List.Pairwise.cons (fun q hq => passTs_lt sqrtf os _ q hq) (ih _)
    · exact ih _

/-- C10: for every ray and every primitive (Sphere or Triangle), `hit(ray)`
mutates at most the ray's `t` field — the origin and direction are unchanged
after the call, whatever the return value. -/
theorem hit_mutates_only_t (sqrtf : ℚ → ℚ) (p : Prim) (r : Ray) :
    (Prim.hit sqrtf p r).1.origin = r.origin ∧
    (Prim.hit sqrtf p r).1.direction = r.direction := by
  cases p with
  | sph s =>
    have hdisp : Prim.hit sqrtf (Prim.sph s) r = Sphere.hit sqrtf s r := rfl
    rw [hdisp]
    unfold Sphere.hit
    split_ifs <;> exact ⟨rfl, rfl⟩
  | tri t =>
    have hdisp : Prim.hit sqrtf (Prim.tri t) r = Triangle.hit t r := rfl
    rw [hdisp]
    unfold Triangle.hit
    split_ifs <;> exact ⟨rfl, rfl⟩

/-- C2: every `hit` call leaves `ray.t` unchanged or strictly decreases it;
every call that returns true strictly decreases it; hence within one pass over
the primitive list the recorded distances of the successful hits are strictly
decreasing — each successful hit is strictly closer than every earlier one. -/
theorem hit_t_monotone_closest_wins (sqrtf : ℚ → ℚ) :
    (∀ (p : Prim) (r : Ray), (Prim.hit sqrtf p r).1.t ≤ r.t) ∧
    (∀ (p : Prim) (r : Ray), (Prim.hit sqrtf p r).2 = true →
      (Prim.hit sqrtf p r).1.t < r.t) ∧
    (∀ (os : List Prim) (r : Ray),
      List.Pairwise (fun a b => b < a) (passTs sqrtf os r)) :=
  ⟨prim_hit_t_le sqrtf, prim_hit_true_t_lt sqrtf, passTs_pairwise sqrtf⟩

/-- Witness for C2 at a concrete accepted sphere hit (distance 9 against a
fresh ray). -/
theorem hit_t_monotone_witness :
    (Prim.hit (fun q => q) (Prim.sph s0) r0).2 = true ∧
    (Prim.hit (fun q => q) (Prim.sph s0) r0).1.t < r0.t := by
  have hs : (Prim.hit (fun q => q) (Prim.sph s0) r0).2 = true := by
    norm_num [Prim.hit, Sphere.hit, sphG, sphM, sphH, sphT0, sphT1, dot, vsub,
      s0, r0, Ray.make, vzero, matZero, eps, floatMax]
  exact ⟨hs, (hit_t_monotone_closest_wins (fun q => q)).2.1 (Prim.sph s0) r0 hs⟩

/-- C3: case analysis of `Sphere::hit` with `h = center - origin`,
`m = dot(h, direction)`, `g = m*m - dot(h,h) + radius^2`, `t0 = m - sqrt(g)`,
`t1 = m + sqrt(g)`: negative discriminant rejects without mutation; `t0` is
accepted when `eps < t0 < ray.t`, else `t1` under the same test, else the call
returns false; acceptance writes the accepted root into `ray.t`; and when both
roots are at most `eps` the call rejects with `ray.t` unchanged. -/
theorem sphere_hit_spec (sqrtf : ℚ → ℚ) (s : Sphere) (r : Ray) :
    (sphG s r < 0 → Sphere.hit sqrtf s r = (r, false)) ∧
    (0 ≤ sphG s r → eps < sphT0 sqrtf s r → sphT0 sqrtf s r < r.t →
      Sphere.hit sqrtf s r = ({ r with t := sphT0 sqrtf s r }, true)) ∧
    (0 ≤ sphG s r → ¬ (eps < sphT0 sqrtf s r ∧ sphT0 sqrtf s r < r.t) →
      eps < sphT1 sqrtf s r → sphT1 sqrtf s r < r.t →
      Sphere.hit sqrtf s r = ({ r with t := sphT1 sqrtf s r }, true)) ∧
    (0 ≤ sphG s r → ¬ (eps < sphT0 sqrtf s r ∧ sphT0 sqrtf s r < r.t) →
      ¬ (eps < sphT1 sqrtf s r ∧ sphT1 sqrtf s r < r.t) →
      Sphere.hit sqrtf s r = (r, false)) ∧
    (sphT0 sqrtf s r ≤ eps → sphT1 sqrtf s r ≤ eps →
      Sphere.hit sqrtf s r = (r, false)) := by
  refine ⟨fun hg => ?_, fun hg h1 h2 => ?_, fun hg hn h1 h2 => ?_,
    fun hg hn0 hn1 => ?_, fun h0 h1 => ?_⟩
  · simp only [Sphere.hit, if_pos hg]
  · simp only [Sphere.hit]
    rw [if_neg (not_lt.mpr hg), if_pos ⟨h1, h2⟩]
  · simp only [Sphere.hit]
    rw [if_neg (not_lt.mpr hg), if_neg hn, if_pos ⟨h1, h2⟩]
  · simp only [Sphere.hit]
    rw [if_neg (not_lt.mpr hg), if_neg hn0, if_neg hn1]
  · unfold Sphere.hit
    split_ifs with hg ha hb
    · rfl
    · exact absurd ha.1 (not_lt.mpr h0)
    · exact absurd hb.1 (not_lt.mpr h1)
    · rfl

/-- Witness for C3: the fixture sphere accepts `t0 = 9` on a fresh ray. -/
theorem sphere_hit_spec_witness :
    Sphere.hit (fun q => q) s0 r0 = ({ r0 with t := 9 }, true) := by
  have h9 : sphT0 (fun q => q) s0 r0 = 9 := by
    norm_num [sphT0, sphG, sphM, sphH, dot, vsub, s0, r0, Ray.make, vzero, matZero]
  have h := (sphere_hit_spec (fun q => q) s0 r0).2.1
    (by norm_num [sphG, sphM, sphH, dot, vsub, s0, r0, Ray.make, vzero, matZero])
    (by rw [h9]; norm_num [eps])
    (by rw [h9]; norm_num [r0, Ray.make, floatMax])
  rw [h9] at h
  exact h

/-- C8: `normalize` is total; whenever the computed length `sqrt(dot(v, v))` is
zero (in particular on the zero vector, where `dot(v, v) = 0`), the zero vector
is returned via the early branch that performs no division. -/
theorem normalize_zero_safe (sqrtf : ℚ → ℚ) (v : vec3) :
    (sqrtf (dot v v) = 0 → vnormalize sqrtf v = vzero) ∧
    (sqrtf 0 = 0 → vnormalize sqrtf vzero = vzero) := by
  constructor
  · intro h
    simp [vnormalize, h]
  · intro h
    have hd : dot vzero vzero = 0 := by norm_num [dot, vzero]
    simp [vnormalize, hd, h]

/-- Witness for C8: the identity function is a square root at `0`, and
normalizing the zero vector with it returns the zero vector. -/
theorem normalize_zero_witness : vnormalize (fun q => q) vzero = vzero :=
  (normalize_zero_safe (fun q => q) vzero).2 rfl

/-- C7 counterexample: the claim says `t` is initialized to `+infinity`, but
both `Ray` constructors initialize `t` to `std::numeric_limits<float>::max()`,
the largest FINITE float — a value that is not above every finite float
magnitude, hence not `+infinity`. -/
theorem ray_t_init_not_infinity :
    ¬ IsFloatInfinity (Ray.make vzero vzero).t ∧ ¬ IsFloatInfinity rayDefault.t := by
  have habs : |floatMax| ≤ floatMax := by norm_num [floatMax]
  constructor
  · intro h
    exact absurd (h floatMax habs) (lt_irrefl floatMax)
  · intro h
    exact absurd (h floatMax habs) (lt_irrefl floatMax)

/-- C7 amended: every `Ray`, whether built from an origin and direction or
default-constructed, has `t` initialized to `FLT_MAX = (2^24 - 1) * 2^104`,
the largest finite float (not `+infinity`). -/
theorem ray_t_init_floatMax :
    (∀ o d, (Ray.make o d).t = floatMax) ∧ rayDefault.t = floatMax ∧
    floatMax = (2 ^ 24 - 1) * 2 ^ 104 ∧ |floatMax| ≤ floatMax :=
  ⟨fun _ _ => rfl, rfl, rfl, by norm_num [floatMax]⟩

/-- C9: for pixel `(i, j)` of a `Width × Height` image, the primary ray of
`ray_trace` originates at `(i - Width/2, j - Height/2, -1000)` (with the C++
truncating integer division) and has direction `(0, 0, 1)`. -/
theorem primary_ray_spec (sqrtf : ℚ → ℚ) (objs : List Prim) (lights : List Light)
    (Width Height MaxDepth : ℕ) (i j : ℤ) :
    ray_trace sqrtf objs lights Width Height MaxDepth i j =
      (traceRun sqrtf objs lights MaxDepth
        { origin := ⟨(i : ℚ) - ((Width / 2 : ℕ) : ℚ), (j : ℚ) - ((Height / 2 : ℕ) : ℚ), -1000⟩,
          direction := ⟨0, 0, 1⟩, t := floatMax }
        vzero 1).1 := by
  have hcast : ∀ (n : ℤ) (m : ℕ), ((n - (m : ℤ) : ℤ) : ℚ) = (n : ℚ) - (m : ℚ) := by
    intro n m
    push_cast
    ring
  unfold ray_trace Ray.make
  rw [hcast i (Width / 2), hcast j (Height / 2)]

/-- C1: whenever the plane-intersection time lies in `(eps, ray.t)` (with a
normal denominator), `Triangle::hit` assigns `ray.t = time` before the
barycentric containment test, whatever it later returns; and on the concrete
fixture, where containment fails, the call returns false with `ray.t` lowered
from `floatMax` to `1` and not restored. -/
theorem triangle_hit_mutation_defect :
    (∀ (tr : Triangle) (r : Ray), isNormalF (triDenom tr r) →
      eps < triTime tr r → triTime tr r < r.t →
      (Triangle.hit tr r).1.t = triTime tr r) ∧
    Triangle.hit tri0 ray0 = ({ ray0 with t := 1 }, false) ∧
    ray0.t = floatMax ∧ (1 : ℚ) < floatMax := by
  refine ⟨?_, ?_, rfl, by norm_num [floatMax]⟩
  · intro tr r hden ht1 ht2
    have hn : ¬ ¬ isNormalF (triDenom tr r) := not_not_intro hden
    have hneg : ¬ triTime tr r < 0 := not_lt.mpr (le_of_lt (lt_trans eps_pos ht1))
    unfold Triangle.hit
    rw [if_neg hn, if_neg hneg, if_pos ⟨ht1, ht2⟩]
    split_ifs <;> rfl
  · norm_num [Triangle.hit, triBeta, triGamma, triDet, triEp, triSol, triTime,
      triD, triDenom, triN, triE1, triE2, cross, dot, vadd, vsub, smul,
      tri0, ray0, Ray.make, vzero, matZero, eps, floatMax, isNormalF,
      minNormal, abs_one]

/-- Witness for C1 at the concrete fixture: the denominator is normal, the
plane time `1` lies in the window, and the returned ray's `t` equals it. -/
theorem triangle_hit_mutation_witness :
    isNormalF (triDenom tri0 ray0) ∧
    (Triangle.hit tri0 ray0).1.t = triTime tri0 ray0 := by
  have hdenv : triDenom tri0 ray0 = 1 := by
    norm_num [triDenom, triN, triE1, triE2, cross, dot, vsub,
      tri0, ray0, Ray.make, vzero, matZero]
  have htime : triTime tri0 ray0 = 1 := by
    norm_num [triTime, triD, triDenom, triN, triE1, triE2, cross, dot, vsub,
      tri0, ray0, Ray.make, vzero, matZero]
  have hden : isNormalF (triDenom tri0 ray0) := by
    rw [hdenv]
    norm_num [isNormalF, minNormal, floatMax, abs_one]
  refine ⟨hden, triangle_hit_mutation_defect.1 tri0 ray0 hden ?_ ?_⟩
  · rw [htime]
    norm_num [eps]
  · rw [htime]
    norm_num [ray0, Ray.make, floatMax]

/-- C4: when the plane time lies in `(eps, ray.t)` and the denominator and the
Gram determinant are normal floats, `Triangle::hit` returns true exactly when
`beta >= 0`, `gamma >= 0` and `beta + gamma <= 1` — the code's extra checks
`beta <= 1`, `gamma <= 1`, `beta + gamma >= 0` are redundant given these. -/
theorem triangle_barycentric_acceptance (tr : Triangle) (r : Ray)
    (hden : isNormalF (triDenom tr r)) (ht1 : eps < triTime tr r)
    (ht2 : triTime tr r < r.t) (hdet : isNormalF (triDet tr)) :
    (Triangle.hit tr r).2 = true ↔
      (0 ≤ triBeta tr r ∧ 0 ≤ triGamma tr r ∧
        triBeta tr r + triGamma tr r ≤ 1) := by
  have hn : ¬ ¬ isNormalF (triDenom tr r) := not_not_intro hden
  have hneg : ¬ triTime tr r < 0 := not_lt.mpr (le_of_lt (lt_trans eps_pos ht1))
  have hd : ¬ ¬ isNormalF (triDet tr) := not_not_intro hdet
  unfold Triangle.hit
  rw [if_neg hn, if_neg hneg, if_pos ⟨ht1, ht2⟩, if_neg hd]
  split_ifs with hbig
  · constructor
    · intro h
      exact absurd h (by simp)
    · rintro ⟨hb, hg, hbg⟩
      exfalso
      rcases hbig with h | h | h | h | h | h <;> linarith
  · constructor
    · intro _
      push_neg at hbig
      exact ⟨hbig.1, hbig.2.2.1, hbig.2.2.2.2.1⟩
    · intro _
      rfl

/-- Witness for C4: a ray through the interior point `(1/4, 1/4, 0)` of the
fixture triangle is accepted. -/
theorem triangle_barycentric_witness :
    (Triangle.hit tri0 rayC4).2 = true := by
  have hdenv : triDenom tri0 rayC4 = 1 := by
    norm_num [triDenom, triN, triE1, triE2, cross, dot, vsub,
      tri0, rayC4, Ray.make, vzero, matZero]
  have hdetv : triDet tri0 = 1 := by
    norm_num [triDet, triE1, triE2, dot, vsub, tri0, vzero, matZero]
  have htime : triTime tri0 rayC4 = 1 := by
    norm_num [triTime, triD, triDenom, triN, triE1, triE2, cross, dot, vsub,
      tri0, rayC4, Ray.make, vzero, matZero]
  have hbeta : triBeta tri0 rayC4 = 1 / 4 := by
    norm_num [triBeta, triDet, triEp, triSol, triTime, triD, triDenom, triN,
      triE1, triE2, cross, dot, vadd, vsub, smul, tri0, rayC4, Ray.make,
      vzero, matZero]
  have hgamma : triGamma tri0 rayC4 = 1 / 4 := by
    norm_num [triGamma, triDet, triEp, triSol, triTime, triD, triDenom, triN,
      triE1, triE2, cross, dot, vadd, vsub, smul, tri0, rayC4, Ray.make,
      vzero, matZero]
  refine (triangle_barycentric_acceptance tri0 rayC4 ?_ ?_ ?_ ?_).mpr ?_
  · rw [hdenv]
    norm_num [isNormalF, minNormal, floatMax, abs_one]
  · rw [htime]
    norm_num [eps]
  · rw [htime]
    norm_num [rayC4, Ray.make, floatMax]
  · rw [hdetv]
    norm_num [isNormalF, minNormal, floatMax, abs_one]
  · rw [hbeta, hgamma]
    norm_num

/-- C5: in the diffuse step, for a light with `dot(normal, light_dir) > 0`, the
shadow ray starts with a fresh `ray.t` (equal to `floatMax`), and whenever the
shadow pass reports any hit — with no comparison of the hit distance against
the distance to the light — the diffuse contribution is skipped, leaving the
color accumulator unchanged. -/
theorem shadow_skips_diffuse_unbounded (sqrtf : ℚ → ℚ) (objs : List Prim)
    (hitPosition hitNormal : vec3) (intensity : ℚ) (mat : Material)
    (c : vec3) (light : Light)
    (hdiff : 0 < dot hitNormal (vnormalize sqrtf (vsub light.position hitPosition)))
    (hshadow : shadowPass sqrtf objs
      (Ray.make hitPosition (vnormalize sqrtf (vsub light.position hitPosition))) = true) :
    diffuseStep sqrtf objs hitPosition hitNormal intensity mat c light = c ∧
    (Ray.make hitPosition
      (vnormalize sqrtf (vsub light.position hitPosition))).t = floatMax := by
  refine ⟨?_, rfl⟩
  simp only [diffuseStep]
  rw [if_neg (not_le.mpr hdiff), if_pos hshadow]

/-- Witness for C5: the occluding sphere sits at distance 19, beyond the light
at distance 10, yet the diffuse contribution is skipped. -/
theorem shadow_skips_diffuse_witness :
    diffuseStep sqrtC5 [Prim.sph occSphere] vzero ⟨0, 0, 1⟩ 1 matZero vzero light0 = vzero ∧
    (Prim.hit sqrtC5 (Prim.sph occSphere)
      (Ray.make vzero (vnormalize sqrtC5 (vsub light0.position vzero)))).1.t = 19 := by
  have hnorm : vnormalize sqrtC5 (vsub light0.position vzero) = ⟨0, 0, 1⟩ := by
    norm_num [vnormalize, sqrtC5, dot, vsub, light0, vzero]
  have hhit : Prim.hit sqrtC5 (Prim.sph occSphere) (Ray.make vzero ⟨0, 0, 1⟩) =
      ({ Ray.make vzero ⟨0, 0, 1⟩ with t := 19 }, true) := by
    norm_num [Prim.hit, Sphere.hit, sphG, sphM, sphH, sphT0, sphT1, dot, vsub,
      occSphere, Ray.make, vzero, matZero, sqrtC5, eps, floatMax]
  have hshadow : shadowPass sqrtC5 [Prim.sph occSphere]
      (Ray.make vzero (vnormalize sqrtC5 (vsub light0.position vzero))) = true := by
    rw [hnorm]
    simp [shadowPass, hhit]
  have hdiff : 0 < dot (⟨0, 0, 1⟩ : vec3)
      (vnormalize sqrtC5 (vsub light0.position vzero)) := by
    rw [hnorm]
    norm_num [dot]
  refine ⟨(shadow_skips_diffuse_unbounded sqrtC5 [Prim.sph occSphere] vzero
    ⟨0, 0, 1⟩ 1 matZero vzero light0 hdiff hshadow).1, ?_⟩
  rw [hnorm, hhit]

/-- C6: the trace loop executes at most `MaxDepth` iterations and returns the
accumulated color; an iteration returns early with the current color when the
nearest-hit pass finds nothing, and returns the shaded color when, after
multiplying the intensity by the hit material's reflect coefficient, the
intensity drops below `0.01` — so it terminates even when every bounce hits. -/
theorem trace_loop_bounded_termination (sqrtf : ℚ → ℚ) (objs : List Prim)
    (lights : List Light) :
    (∀ (depth : ℕ) (ray : Ray) (color : vec3) (intensity : ℚ),
      (traceRun sqrtf objs lights depth ray color intensity).2 ≤ depth) ∧
    (∀ (depth : ℕ) (ray : Ray) (color : vec3) (intensity : ℚ),
      (scenePass sqrtf objs ray).2 = none →
      traceRun sqrtf objs lights (depth + 1) ray color intensity = (color, 1)) ∧
    (∀ (depth : ℕ) (ray : Ray) (color : vec3) (intensity : ℚ) (obj : Prim),
      (scenePass sqrtf objs ray).2 = some obj →
      intensity * (Prim.material obj).reflect < 1 / 100 →
      traceRun sqrtf objs lights (depth + 1) ray color intensity =
        (shadeAmbientDiffuse sqrtf objs lights (scenePass sqrtf objs ray).1 obj
          color intensity, 1)) := by
  refine ⟨?_, ?_, ?_⟩
  · intro depth
    induction depth with
    | zero =>
      intro ray color intensity
      simp [traceRun]
    | succ d ih =>
      intro ray color intensity
      simp only [traceRun]
      cases hp : (scenePass sqrtf objs ray).2 with
      | none => simp
      | some obj =>
        simp only []
        split
        · omega
        · exact Nat.succ_le_succ (ih _ _ _)
  · intro depth ray color intensity h
    simp [traceRun, h]
  · intro depth ray color intensity obj h hcut
    simp [traceRun, h, hcut]
    intro hc
    linarith

/-- Witness for C6: on an empty scene the loop exits after its first no-hit
pass, returning the untouched accumulator. -/
theorem trace_loop_bounded_witness :
    traceRun (fun q => q) [] [] 5 r0 vzero 1 = (vzero, 1) :=
  (trace_loop_bounded_termination (fun q => q) [] []).2.1 4 r0 vzero 1 rfl
